import Mathlib

/-!
Shallow embedding of the PyQuante core modules `MolecularGrid.py`, `dmm.py`
and `UHFSolver.py`, together with theorems settling the specification claims.

Python floating-point numbers are modelled as exact rationals (`ℚ`); a Python
`ZeroDivisionError` (float division by a zero denominator raises in Python)
is modelled by an explicit `Except.error` return.  External collaborators of
the repository (LA2, Ints, AtomicGrid, fermi_dirac, cints) are passed as
function parameters, so every theorem holds for every implementation of them.
-/

namespace MolGrid

/-- Errors that can abort grid patching (`MolecularGrid.patch_atoms`):
Python raises `ZeroDivisionError` on float division by zero, and `IndexError`
on an out-of-range list access. -/
inductive GridErr where
  | zeroDivision : GridErr
  | indexError : GridErr
deriving DecidableEq, Repr

/-- An atom as used by `MolecularGrid`: atomic number `atno` and Cartesian
position (`ati.pos()` in the source). -/
structure GAtom where
  atno : ℕ
  x : ℚ
  y : ℚ
  z : ℚ
deriving DecidableEq, Repr

/-- `ati.pos()` — the Cartesian position triple. -/
def GAtom.pos (a : GAtom) : ℚ × ℚ × ℚ := (a.x, a.y, a.z)

/-- A grid point: position and mutable weight (`point.xyzw()` in the source). -/
structure GPoint where
  x : ℚ
  y : ℚ
  z : ℚ
  w : ℚ
deriving DecidableEq, Repr

/-- Modelled from the spec: `dist2` comes from the C extension
`PyQuante.cints`, which is not part of the sources here; the spec describes
`r_ip`, `r_jp`, `r_ij` as Euclidean distances, so `dist2` is the squared
Euclidean distance between two points. -/
def dist2 (p q : ℚ × ℚ × ℚ) : ℚ :=
  (p.1 - q.1) ^ 2 + (p.2.1 - q.2.1) ^ 2 + (p.2.2 - q.2.2) ^ 2

/-- `pbecke(x) = 1.5*x - 0.5*pow(x,3)` (source line 191). -/
def pbecke (x : ℚ) : ℚ := 3 / 2 * x - 1 / 2 * x ^ 3

/-- The loop body of `fbecke`: `for i in range(n): x = pbecke(x)`. -/
def fbeckeAux : ℕ → ℚ → ℚ
  | 0, x => x
  | n + 1, x => fbeckeAux n (pbecke x)

/-- `fbecke(x, n=3)` (source lines 188–190); the default `n = 3` is passed
explicitly by callers of this embedding. -/
def fbecke (x : ℚ) (n : ℕ) : ℚ := fbeckeAux n x

/-- `sbecke(x, n=3) = 0.5*(1 - fbecke(x,n))` (source line 192). -/
def sbecke (x : ℚ) (n : ℕ) : ℚ := 1 / 2 * (1 - fbecke x n)

/-- One factor `sbecke(mu)` of the cell-function product in
`MolecularGrid.patch_atoms` (source lines 64–80), for the pair of the host
atom `ati` and one other atom `atj`, at a grid point with coordinates
`(px, py, pz)` and precomputed `rip`.  `sqrtQ` is the (external) square
root; `bragg` is the Bragg-radius table from `AtomicGrid`.  Python raises
`ZeroDivisionError` at `mu = (rip-rjp)/rij` when `rij = 0`. -/
def beckeFactor (sqrtQ : ℚ → ℚ) (bragg : ℕ → ℚ) (hetero : Bool)
    (ati atj : GAtom) (rip px py pz : ℚ) : Except GridErr ℚ :=
  let rjp2 := dist2 atj.pos (px, py, pz)
  let rjp := sqrtQ rjp2
  let rij2 := dist2 ati.pos atj.pos
  let rij := sqrtQ rij2
  if rij = 0 then .error .zeroDivision
  else
    let mu := (rip - rjp) / rij
    if hetero ∧ ati.atno ≠ atj.atno then
      if bragg atj.atno = 0 then .error .zeroDivision
      else
        let chi := bragg ati.atno / bragg atj.atno
        if chi + 1 = 0 then .error .zeroDivision
        else
          let u := (chi - 1) / (chi + 1)
          if u * u - 1 = 0 then .error .zeroDivision
          else
            let a := u / (u * u - 1)
            let a := min a (1 / 2)
            let a := max a (-(1 / 2))
            .ok (sbecke (mu + a * (1 - mu * mu)) 3)
    else .ok (sbecke mu 3)

/-- The inner loop `for jat in range(nat)` of `patch_atoms`, accumulating
`sprod` and skipping `jat == iat`; `k` is the running index `jat` of the
head of the remaining atom list. -/
def sprodGo (sqrtQ : ℚ → ℚ) (bragg : ℕ → ℚ) (hetero : Bool)
    (iat : ℕ) (ati : GAtom) (rip px py pz : ℚ) :
    List GAtom → ℕ → ℚ → Except GridErr ℚ
  | [], _, acc => .ok acc
  | atj :: rest, k, acc =>
    if k = iat then sprodGo sqrtQ bragg hetero iat ati rip px py pz rest (k + 1) acc
    else
      match beckeFactor sqrtQ bragg hetero ati atj rip px py pz with
      | .error e => .error e
      | .ok s => sprodGo sqrtQ bragg hetero iat ati rip px py pz rest (k + 1) (acc * s)

/-- Processing of a single grid point of atom `iat` in `patch_atoms`
(source lines 58–82): compute `rip`, accumulate `sprod` over all other
atoms, and multiply the point weight by it. -/
def patchPoint (sqrtQ : ℚ → ℚ) (bragg : ℕ → ℚ) (hetero : Bool)
    (atoms : List GAtom) (iat : ℕ) (ati : GAtom) (p : GPoint) :
    Except GridErr GPoint :=
  let rip2 := dist2 ati.pos (p.x, p.y, p.z)
  let rip := sqrtQ rip2
  match sprodGo sqrtQ bragg hetero iat ati rip p.x p.y p.z atoms 0 1 with
  | .error e => .error e
  | .ok sprod => .ok { p with w := p.w * sprod }

/-- The loop `for i in range(npts)` over the points of one atomic grid. -/
def patchGrid (sqrtQ : ℚ → ℚ) (bragg : ℕ → ℚ) (hetero : Bool)
    (atoms : List GAtom) (iat : ℕ) (ati : GAtom) :
    List GPoint → Except GridErr (List GPoint)
  | [] => .ok []
  | p :: ps =>
    match patchPoint sqrtQ bragg hetero atoms iat ati p with
    | .error e => .error e
    | .ok p1 =>
      match patchGrid sqrtQ bragg hetero atoms iat ati ps with
      | .error e => .error e
      | .ok ps1 => .ok (p1 :: ps1)

/-- The outer loop `for iat in range(nat)` of `patch_atoms`, walking the
atom list and the list of atomic grids (`self.atomgrids[iat]`) in lockstep;
a missing grid is Python's `IndexError`. -/
def patchGo (sqrtQ : ℚ → ℚ) (bragg : ℕ → ℚ) (hetero : Bool)
    (atoms : List GAtom) :
    List GAtom → List (List GPoint) → ℕ → Except GridErr (List (List GPoint))
  | [], _, _ => .ok []
  | _ :: _, [], _ => .error .indexError
  | ati :: restA, g :: restG, iat =>
    match patchGrid sqrtQ bragg hetero atoms iat ati g with
    | .error e => .error e
    | .ok g1 =>
      match patchGo sqrtQ bragg hetero atoms restA restG (iat + 1) with
      | .error e => .error e
      | .ok rest1 => .ok (g1 :: rest1)

/-- `MolecularGrid.patch_atoms` (source lines 52–83): for every atom and
every point of its atomic grid, multiply the point weight by the Becke cell
product over all other atoms.  `MolecularGrid.__init__` calls this during
construction (source line 33), so an error here aborts construction. -/
def patch_atoms (sqrtQ : ℚ → ℚ) (bragg : ℕ → ℚ) (hetero : Bool)
    (atoms : List GAtom) (grids : List (List GPoint)) :
    Except GridErr (List (List GPoint)) :=
  patchGo sqrtQ bragg hetero atoms atoms grids 0

end MolGrid

namespace Dmm

/-- Square rational matrices, the dense arrays of `dmm.py`. -/
abbrev Mat (n : ℕ) := Matrix (Fin n) (Fin n) ℚ

/-- Errors that can abort `DMP`: Python's `ZeroDivisionError` and the
`raise "Unknown method %d" % Method` for a bad method selector. -/
inductive DmmErr where
  | zeroDivision : DmmErr
  | unknownMethod : DmmErr
deriving DecidableEq, Repr

/-- `trace(A) = sum(diagonal(A))` (dmm.py line 39). -/
def trace {n : ℕ} (A : Mat n) : ℚ := ∑ i, A i i

/-- `sum(sum(D))` — the total sum of all matrix elements (dmm.py line 95). -/
def sumAll {n : ℕ} (A : Mat n) : ℚ := ∑ i, ∑ j, A i j

/-- `gershgorin_minmax` (dmm.py lines 29–37): for each row `i`,
`offsum = sum(abs(A[i,:])) - abs(A[i,i])`; return the minimum of
`A[i,i] - offsum` and the maximum of `A[i,i] + offsum` over all rows. -/
def gershgorin_minmax {n : ℕ} (A : Mat (n + 1)) : ℚ × ℚ :=
  (Finset.univ.inf' Finset.univ_nonempty
      (fun i => A i i - (∑ j, |A i j| - |A i i|)),
   Finset.univ.sup' Finset.univ_nonempty
      (fun i => A i i + (∑ j, |A i j| - |A i i|)))

/-- The bisection loop `for i in range(100)` of `Dinit_mcw`
(dmm.py lines 53–63), returning the last computed `efermi`; `fuel` counts
the remaining loop iterations. -/
def mcwLoop {n : ℕ} (F : Mat (n + 1)) (alpha beta Ne tol : ℚ) :
    ℕ → ℚ → ℚ → ℚ
  | 0, elow, ehigh => (elow + ehigh) / 2
  | fuel + 1, elow, ehigh =>
    let efermi := (elow + ehigh) / 2
    let nefermi :=
      trace (alpha • (efermi • (1 : Mat (n + 1)) - F) + beta • (1 : Mat (n + 1)))
    if |Ne - nefermi| < tol then efermi
    else if fuel = 0 then efermi
    else if nefermi < Ne then mcwLoop F alpha beta Ne tol fuel efermi ehigh
    else if Ne < nefermi then mcwLoop F alpha beta Ne tol fuel elow efermi
    else mcwLoop F alpha beta Ne tol fuel elow ehigh

/-- `Dinit_mcw(F, Ne, tol=1e-7)` (dmm.py lines 41–65): bisection on the
Fermi-like trace function between the Gershgorin bounds, then the final
interpolated matrix.  Zero denominators raise `ZeroDivisionError`. -/
def Dinit_mcw {n : ℕ} (F : Mat (n + 1)) (Ne tol : ℚ) :
    Except DmmErr (Mat (n + 1)) :=
  let beta : ℚ := 1 / 2
  let mm := gershgorin_minmax F
  let emin := mm.1
  let emax := mm.2
  let elow := emin
  let de := emax - elow
  if de = 0 then .error .zeroDivision
  else
    let alpha := beta / de
    let efermi := mcwLoop F alpha beta Ne tol 100 elow (emax + 20)
    if emax - efermi = 0 then .error .zeroDivision
    else if efermi - emin = 0 then .error .zeroDivision
    else
      let alpha2 := min (beta / (emax - efermi)) ((1 - beta) / (efermi - emin))
      .ok (alpha2 • (efermi • (1 : Mat (n + 1)) - F) + beta • (1 : Mat (n + 1)))

/-- Step 2 of `DMP` (dmm.py lines 79–93): initialize the density matrix
from the Gershgorin bounds `(emin, emax)` of the orthogonalized Fock matrix
`Fo`, by the method-specific formula; an unknown method selector raises. -/
def dmpInitD {n : ℕ} (Method : ℤ) (Fo : Mat (n + 1)) (emin emax Ne : ℚ) :
    Except DmmErr (Mat (n + 1)) :=
  if Method = 0 ∨ Method = 1 then
    if emax - emin = 0 then .error .zeroDivision
    else .ok ((emax - emin)⁻¹ • (emax • (1 : Mat (n + 1)) - Fo))
  else if Method = 2 then Dinit_mcw Fo Ne (1 / 10000000)
  else if Method = 3 then
    let N : ℚ := (n : ℚ) + 1
    let efermi := trace Fo / N
    let beta := Ne / N
    if emax - efermi = 0 then .error .zeroDivision
    else if efermi - emin = 0 then .error .zeroDivision
    else
      let alpha := min (Ne / (emax - efermi)) ((N - Ne) / (efermi - emin)) / N
      .ok (alpha • (efermi • (1 : Mat (n + 1)) - Fo) + beta • (1 : Mat (n + 1)))
  else .error .unknownMethod

/-- One iteration of the `for iter in range(MaxIter)` loop of `DMP`
(dmm.py lines 97–133): returns the updated `D`, the value of `Dsumold` for
the next iteration, and whether the `break` was taken. -/
def dmpStep {n : ℕ} (Ne ErrorLimit : ℚ) (Method : ℤ)
    (D : Mat n) (Dsumold : ℚ) : Except DmmErr (Mat n × ℚ × Bool) :=
  let Ne_curr := trace D
  let D2 := D * D
  if Method = 0 then
    let D1 := if Ne_curr < Ne then (2 : ℚ) • D - D2 else D2
    .ok (D1, Dsumold, |Ne_curr - Ne| < ErrorLimit)
  else if Method = 1 then
    let Df := D2 * ((4 : ℚ) • D - (3 : ℚ) • D2)
    let trf := trace Df
    let Dp := (1 : Mat n) - D
    let Dp2 := Dp * Dp
    let Dg := D2 * Dp2
    let trg := trace Dg
    if trg = 0 then .error .zeroDivision
    else
      let gamma := (Ne - trf) / trg
      let D1 := if gamma > 2 then (2 : ℚ) • D - D2
                else if gamma < 0 then D2
                else Df - gamma • Dg
      .ok (D1, Dsumold, |Ne_curr - Ne| < ErrorLimit)
  else if Method = 2 then
    let D1 := (3 : ℚ) • D2 - (2 : ℚ) • (D * D2)
    .ok (D1, Dsumold, |Ne_curr - Ne| < ErrorLimit)
  else
    let D3 := D * D2
    let den := trace (D - D2)
    if den = 0 then .error .zeroDivision
    else
      let cn := trace (D2 - D3) / den
      let D1 := if cn < 1 / 2 then
                  ((1 - cn)⁻¹) • ((1 - 2 * cn) • D + (1 + cn) • D2 - D3)
                else (cn⁻¹) • ((1 + cn) • D2 - D3)
      let Dsum := sumAll D1
      .ok (D1, Dsum, Dsum - Dsumold < ErrorLimit)

/-- The purification loop of `DMP` with `fuel` remaining iterations;
returns the final `D` and the warning flag of the `for`–`else`
(`print "DMM: Warning MaxIters reached"`): `true` exactly when the loop
exhausted its budget without `break`. -/
def dmpIter {n : ℕ} (Ne ErrorLimit : ℚ) (Method : ℤ) :
    ℕ → Mat n → ℚ → Except DmmErr (Mat n × Bool)
  | 0, D, _ => .ok (D, true)
  | fuel + 1, D, dsumold =>
    match dmpStep Ne ErrorLimit Method D dsumold with
    | .error e => .error e
    | .ok (D1, dsum1, brk) =>
      if brk then .ok (D1, false)
      else dmpIter Ne ErrorLimit Method fuel D1 dsum1

/-- `DMP(F, S, Ne, Method=0, MaxIter=50, ErrorLimit=1e-12)`
(dmm.py lines 67–137).  The external LA2 routines are parameters:
`symOrth S` is `SymOrth(S)`, `simxN F X` is `simx(F,X)` and `simxT D X` is
`simx(D,X,'T')` (the back-transformation to the non-orthogonal basis).
Returns the transformed density matrix and the MaxIter warning flag. -/
def DMP {n : ℕ} (symOrth : Mat (n + 1) → Mat (n + 1))
    (simxN simxT : Mat (n + 1) → Mat (n + 1) → Mat (n + 1))
    (F S : Mat (n + 1)) (Ne : ℚ) (Method : ℤ) (MaxIter : ℕ)
    (ErrorLimit : ℚ) : Except DmmErr (Mat (n + 1) × Bool) :=
  let X := symOrth S
  let Fo := simxN F X
  let mm := gershgorin_minmax Fo
  match dmpInitD Method Fo mm.1 mm.2 Ne with
  | .error e => .error e
  | .ok D0 =>
    match dmpIter Ne ErrorLimit Method MaxIter D0 (sumAll D0) with
    | .error e => .error e
    | .ok r => .ok (simxT r.1 X, r.2)

end Dmm

namespace UHF

/-- Square rational matrices for the UHF solver state. -/
abbrev Mat (n : ℕ) := Matrix (Fin n) (Fin n) ℚ

/-- The mutable attributes of a `UHFSolver` instance that the per-iteration
methods of `UHFSolver.py` read and write.  `ι` is the opaque type of the
two-electron integral record `self.Ints` (provided by `PyQuante.Ints`). -/
structure State (n : ℕ) (ι : Type) where
  Ints : ι
  h : Mat n
  Da : Mat n
  Db : Mat n
  Dab : Mat n
  Da_old : Mat n
  Db_old : Mat n
  Ja : Mat n
  Jb : Mat n
  Ka : Mat n
  Kb : Mat n
  Fa : Mat n
  Fb : Mat n
  orbsa : Mat n
  orbsb : Mat n
  orbea : Fin n → ℚ
  orbeb : Fin n → ℚ
  nalpha : ℕ
  nbeta : ℕ
  iter : ℕ
  etemp : ℚ
  avgfact : ℚ
  do_averaging : Bool
  entropya : ℚ
  entropyb : ℚ
  entropy : ℚ
  Enuke : ℚ
  Eone : ℚ
  Ej : ℚ
  Exc : ℚ
  energy : ℚ

/-- `UHFSolver.update_density` (UHFSolver.py lines 32–52).  The external
density builders are parameters: `mkdens orbs 0 nocc` is `LA2.mkdens` and
`mkdens_fermi nel orbe orbs etemp` is `fermi_dirac.mkdens_fermi`, returning
a density matrix and its entropy.  Python's `if self.etemp:` truthiness on
a float is `etemp ≠ 0`. -/
def update_density {n : ℕ} {ι : Type}
    (mkdens : Mat n → ℕ → ℕ → Mat n)
    (mkdens_fermi : ℕ → (Fin n → ℚ) → Mat n → ℚ → Mat n × ℚ)
    (st : State n ι) : State n ι :=
  let st1 :=
    if st.etemp ≠ 0 then
      let ra := mkdens_fermi (2 * st.nalpha) st.orbea st.orbsa st.etemp
      let rb := mkdens_fermi (2 * st.nbeta) st.orbeb st.orbsb st.etemp
      { st with Da := ra.1, Db := rb.1, entropya := ra.2, entropyb := rb.2,
                entropy := (ra.2 + rb.2) / 2 }
    else
      { st with Da := mkdens st.orbsa 0 st.nalpha,
                Db := mkdens st.orbsb 0 st.nbeta, entropy := 0 }
  let st2 :=
    if st1.do_averaging then
      let stm :=
        if st1.iter > 1 then
          { st1 with
              Da := st1.avgfact • st1.Da + (1 - st1.avgfact) • st1.Da_old,
              Db := st1.avgfact • st1.Db + (1 - st1.avgfact) • st1.Db_old }
        else st1
      { stm with Da_old := stm.Da, Db_old := stm.Db }
    else st1
  { st2 with Dab := st2.Da + st2.Db }

/-- `UHFSolver.update_J` (lines 54–59): `Ja = getJ(Ints, Da)`,
`Jb = getJ(Ints, Db)`; `getJ` is the external Coulomb builder. -/
def update_J {n : ℕ} {ι : Type} (getJ : ι → Mat n → Mat n)
    (st : State n ι) : State n ι :=
  { st with Ja := getJ st.Ints st.Da, Jb := getJ st.Ints st.Db }

/-- `UHFSolver.update_K` (lines 61–66): `Ka = getK(Ints, Da)`,
`Kb = getK(Ints, Db)`; `getK` is the external exchange builder. -/
def update_K {n : ℕ} {ι : Type} (getK : ι → Mat n → Mat n)
    (st : State n ι) : State n ι :=
  { st with Ka := getK st.Ints st.Da, Kb := getK st.Ints st.Db }

/-- `UHFSolver.update_fock` (lines 68–77): run `update_J` and `update_K`,
then `Fa = h + Ja + Jb - Ka` and `Fb = h + Ja + Jb - Kb`. -/
def update_fock {n : ℕ} {ι : Type} (getJ getK : ι → Mat n → Mat n)
    (st : State n ι) : State n ι :=
  let st1 := update_J getJ st
  let st2 := update_K getK st1
  { st2 with Fa := st2.h + st2.Ja + st2.Jb - st2.Ka,
             Fb := st2.h + st2.Ja + st2.Jb - st2.Kb }

/-- `UHFSolver.calculate_energy` (lines 85–91): `Eone = trace2(Dab,h)`,
`Ej = 0.5*trace2(Dab, Ja+Jb)`, `Exc = -0.5*(trace2(Da,Ka)+trace2(Db,Kb))`,
`energy = Eone + Ej + Exc + Enuke + entropy`; `trace2` is the external
pairing from `LA2`. -/
def calculate_energy {n : ℕ} {ι : Type} (trace2 : Mat n → Mat n → ℚ)
    (st : State n ι) : State n ι :=
  let Eone := trace2 st.Dab st.h
  let Ej := 1 / 2 * trace2 st.Dab (st.Ja + st.Jb)
  let Exc := -(1 / 2) * (trace2 st.Da st.Ka + trace2 st.Db st.Kb)
  { st with Eone := Eone, Ej := Ej, Exc := Exc,
            energy := Eone + Ej + Exc + st.Enuke + st.entropy }

end UHF

section BeckeBounds

open MolGrid

/-- The Becke polynomial `f(x) = 1.5x - 0.5x³` maps `[-1,1]` into `[-1,1]`. -/
theorem pbecke_bounds (x : ℚ) (h1 : -1 ≤ x) (h2 : x ≤ 1) :
    -1 ≤ pbecke x ∧ pbecke x ≤ 1 := by
  constructor
  · have := sq_nonneg (x + 1)
    unfold pbecke
    nlinarith [sq_nonneg (x + 1), sq_nonneg (x - 1)]
  · unfold pbecke
    nlinarith [sq_nonneg (x + 1), sq_nonneg (x - 1)]

/-- Iterating `pbecke` any number of times stays in `[-1,1]`. -/
theorem fbeckeAux_bounds : ∀ (n : ℕ) (x : ℚ), -1 ≤ x → x ≤ 1 →
    -1 ≤ fbeckeAux n x ∧ fbeckeAux n x ≤ 1
  | 0, x, h1, h2 => ⟨h1, h2⟩
  | n + 1, x, h1, h2 => by
    have hp := pbecke_bounds x h1 h2
    exact fbeckeAux_bounds n (pbecke x) hp.1 hp.2

/-- `dist2` of a point with itself is zero. -/
theorem dist2_self (p : ℚ × ℚ × ℚ) : dist2 p p = 0 := by
  simp [dist2]

end BeckeBounds

/-- C3: for every `μ ∈ [-1,1]` the Becke smoothing function
`sbecke(μ) = 0.5·(1 - f(f(f(μ))))` with `f(x) = 1.5x - 0.5x³` (the fixed
default `n = 3`) lies in `[0,1]`; `sbecke 0 = 1/2` exactly, and hence for a
point equidistant from the two atoms (the midplane), with the hetero
correction disabled, the cell weight factor computed by `patch_atoms` is
exactly `1/2`. -/
theorem C3_sbecke_bounds_and_midplane (μ : ℚ) (h1 : -1 ≤ μ) (h2 : μ ≤ 1) :
    (0 ≤ MolGrid.sbecke μ 3 ∧ MolGrid.sbecke μ 3 ≤ 1) ∧
    MolGrid.sbecke 0 3 = 1 / 2 ∧
    (∀ (sqrtQ : ℚ → ℚ) (bragg : ℕ → ℚ) (ati atj : MolGrid.GAtom)
       (px py pz : ℚ),
       MolGrid.dist2 ati.pos (px, py, pz) = MolGrid.dist2 atj.pos (px, py, pz) →
       sqrtQ (MolGrid.dist2 ati.pos atj.pos) ≠ 0 →
       MolGrid.beckeFactor sqrtQ bragg false ati atj
           (sqrtQ (MolGrid.dist2 ati.pos (px, py, pz))) px py pz
         = .ok (1 / 2)) := by
  refine ⟨?_, ?_, ?_⟩
  · have hf := fbeckeAux_bounds 3 μ h1 h2
    unfold MolGrid.sbecke MolGrid.fbecke
    exact ⟨by linarith [hf.2], by linarith [hf.1]⟩
  · norm_num [MolGrid.sbecke, MolGrid.fbecke, MolGrid.fbeckeAux, MolGrid.pbecke]
  · intro sqrtQ bragg ati atj px py pz heq hrij
    unfold MolGrid.beckeFactor
    rw [heq]
    simp only [if_neg hrij, sub_self, zero_div, Bool.false_eq_true, false_and,
      if_neg (by simp : ¬(False ∧ ati.atno ≠ atj.atno))]
    norm_num [MolGrid.sbecke, MolGrid.fbecke, MolGrid.fbeckeAux, MolGrid.pbecke]

/-- Witness for C3 at `μ = 1/2`. -/
theorem C3_sbecke_bounds_and_midplane_witness :
    (0 ≤ MolGrid.sbecke (1 / 2) 3 ∧ MolGrid.sbecke (1 / 2) 3 ≤ 1) ∧
    MolGrid.sbecke 0 3 = 1 / 2 ∧
    (∀ (sqrtQ : ℚ → ℚ) (bragg : ℕ → ℚ) (ati atj : MolGrid.GAtom)
       (px py pz : ℚ),
       MolGrid.dist2 ati.pos (px, py, pz) = MolGrid.dist2 atj.pos (px, py, pz) →
       sqrtQ (MolGrid.dist2 ati.pos atj.pos) ≠ 0 →
       MolGrid.beckeFactor sqrtQ bragg false ati atj
           (sqrtQ (MolGrid.dist2 ati.pos (px, py, pz))) px py pz
         = .ok (1 / 2)) :=
  C3_sbecke_bounds_and_midplane (1 / 2) (by norm_num) (by norm_num)

/-- C4: for a molecule with exactly one atom, `patch_atoms` succeeds and
leaves every grid point unchanged — the product over other atoms is empty,
so each weight is multiplied by `1` and no patching occurs. -/
theorem C4_single_atom_no_patching (sqrtQ : ℚ → ℚ) (bragg : ℕ → ℚ)
    (hetero : Bool) (a : MolGrid.GAtom) (g : List MolGrid.GPoint) :
    MolGrid.patch_atoms sqrtQ bragg hetero [a] [g] = .ok [g] := by
  have hpt : ∀ p : MolGrid.GPoint,
      MolGrid.patchPoint sqrtQ bragg hetero [a] 0 a p = .ok p := by
    intro p
    simp [MolGrid.patchPoint, MolGrid.sprodGo]
  have hgrid : ∀ gs : List MolGrid.GPoint,
      MolGrid.patchGrid sqrtQ bragg hetero [a] 0 a gs = .ok gs := by
    intro gs
    induction gs with
    | nil => rfl
    | cons p ps ih => simp [MolGrid.patchGrid, hpt p, ih]
  simp [MolGrid.patch_atoms, MolGrid.patchGo, hgrid g]

/-- C8: `update_fock` builds the two spin Fock matrices from the shared
Coulomb matrices and spin-specific exchange matrices:
`Fa = h + Ja + Jb - Ka` and `Fb = h + Ja + Jb - Kb` with
`J_sigma = getJ(Ints, D_sigma)` and `K_sigma = getK(Ints, D_sigma)`. -/
theorem C8_uhf_update_fock {n : ℕ} {ι : Type}
    (getJ getK : ι → UHF.Mat n → UHF.Mat n) (st : UHF.State n ι) :
    (UHF.update_fock getJ getK st).Fa
        = st.h + getJ st.Ints st.Da + getJ st.Ints st.Db - getK st.Ints st.Da ∧
    (UHF.update_fock getJ getK st).Fb
        = st.h + getJ st.Ints st.Da + getJ st.Ints st.Db - getK st.Ints st.Db :=
  ⟨rfl, rfl⟩

/-- `update_density` always sets `Dab` to the sum of the spin densities. -/
theorem update_density_Dab {n : ℕ} {ι : Type}
    (mkdens : UHF.Mat n → ℕ → ℕ → UHF.Mat n)
    (mkdens_fermi : ℕ → (Fin n → ℚ) → UHF.Mat n → ℚ → UHF.Mat n × ℚ)
    (st : UHF.State n ι) :
    (UHF.update_density mkdens mkdens_fermi st).Dab
      = (UHF.update_density mkdens mkdens_fermi st).Da
        + (UHF.update_density mkdens mkdens_fermi st).Db := rfl

/-- The entropy set by `update_density`: the average of the two spin
entropies from `mkdens_fermi` at finite electronic temperature, `0`
otherwise; the averaging step does not touch it. -/
theorem update_density_entropy {n : ℕ} {ι : Type}
    (mkdens : UHF.Mat n → ℕ → ℕ → UHF.Mat n)
    (mkdens_fermi : ℕ → (Fin n → ℚ) → UHF.Mat n → ℚ → UHF.Mat n × ℚ)
    (st : UHF.State n ι) :
    (UHF.update_density mkdens mkdens_fermi st).entropy
      = if st.etemp ≠ 0 then
          ((mkdens_fermi (2 * st.nalpha) st.orbea st.orbsa st.etemp).2
            + (mkdens_fermi (2 * st.nbeta) st.orbeb st.orbsb st.etemp).2) / 2
        else 0 := by
  unfold UHF.update_density
  by_cases h1 : st.etemp ≠ 0 <;> by_cases h2 : st.do_averaging = true <;>
    by_cases h3 : st.iter > 1 <;> simp [h1, h2, h3]

/-- C9: after `update_density`, `calculate_energy` computes the total
energy as `trace2(Da+Db,h) + 0.5·trace2(Da+Db,Ja+Jb)
- 0.5·(trace2(Da,Ka)+trace2(Db,Kb)) + entropy + Enuke`, where the entropy
is the average of the two spin entropies at finite electronic temperature
and `0` otherwise. -/
theorem C9_uhf_energy {n : ℕ} {ι : Type}
    (mkdens : UHF.Mat n → ℕ → ℕ → UHF.Mat n)
    (mkdens_fermi : ℕ → (Fin n → ℚ) → UHF.Mat n → ℚ → UHF.Mat n × ℚ)
    (trace2 : UHF.Mat n → UHF.Mat n → ℚ) (st : UHF.State n ι) :
    (UHF.calculate_energy trace2 (UHF.update_density mkdens mkdens_fermi st)).energy
      = trace2 ((UHF.update_density mkdens mkdens_fermi st).Da
            + (UHF.update_density mkdens mkdens_fermi st).Db)
            (UHF.update_density mkdens mkdens_fermi st).h
        + 1 / 2 * trace2 ((UHF.update_density mkdens mkdens_fermi st).Da
            + (UHF.update_density mkdens mkdens_fermi st).Db)
            ((UHF.update_density mkdens mkdens_fermi st).Ja
              + (UHF.update_density mkdens mkdens_fermi st).Jb)
        - 1 / 2 * (trace2 (UHF.update_density mkdens mkdens_fermi st).Da
              (UHF.update_density mkdens mkdens_fermi st).Ka
            + trace2 (UHF.update_density mkdens mkdens_fermi st).Db
              (UHF.update_density mkdens mkdens_fermi st).Kb)
        + (if st.etemp ≠ 0 then
            ((mkdens_fermi (2 * st.nalpha) st.orbea st.orbsa st.etemp).2
              + (mkdens_fermi (2 * st.nbeta) st.orbeb st.orbsb st.etemp).2) / 2
           else 0)
        + (UHF.update_density mkdens mkdens_fermi st).Enuke := by
  have hDab := update_density_Dab mkdens mkdens_fermi st
  have hent := update_density_entropy mkdens mkdens_fermi st
  rw [← hent]
  simp only [UHF.calculate_energy]
  rw [hDab]
  ring

/-- C6: for every method selector outside `{0,1,2,3}`, `DMP` fails with the
configuration error during initialization — it returns no density matrix
and the purification loop never runs (the error is raised by the
initialization dispatch, before `dmpIter`). -/
theorem C6_unknown_method {n : ℕ}
    (symOrth : Dmm.Mat (n + 1) → Dmm.Mat (n + 1))
    (simxN simxT : Dmm.Mat (n + 1) → Dmm.Mat (n + 1) → Dmm.Mat (n + 1))
    (F S : Dmm.Mat (n + 1)) (Ne : ℚ) (Method : ℤ) (MaxIter : ℕ)
    (ErrorLimit : ℚ)
    (h : ¬(Method = 0 ∨ Method = 1 ∨ Method = 2 ∨ Method = 3)) :
    Dmm.DMP symOrth simxN simxT F S Ne Method MaxIter ErrorLimit
      = .error .unknownMethod := by
  push_neg at h
  obtain ⟨h0, h1, h2, h3⟩ := h
  have hinit : ∀ (Fo : Dmm.Mat (n + 1)) (emin emax : ℚ),
      Dmm.dmpInitD Method Fo emin emax Ne = .error .unknownMethod := by
    intro Fo emin emax
    simp [Dmm.dmpInitD, h0, h1, h2, h3]
  simp only [Dmm.DMP]
  rw [hinit]

/-- Witness for C6 at `Method = 4` on a concrete `1×1` system. -/
theorem C6_unknown_method_witness :
    ¬((4 : ℤ) = 0 ∨ (4 : ℤ) = 1 ∨ (4 : ℤ) = 2 ∨ (4 : ℤ) = 3) ∧
    Dmm.DMP (n := 0) (fun S => S) (fun A _ => A) (fun A _ => A)
        (fun _ _ => 0) (fun _ _ => 1) 2 4 50 (1 / 10 ^ 12)
      = .error .unknownMethod :=
  ⟨by decide,
   C6_unknown_method (n := 0) (fun S => S) (fun A _ => A) (fun A _ => A)
     (fun _ _ => 0) (fun _ _ => 1) 2 4 50 (1 / 10 ^ 12) (by decide)⟩

/-- C5: for methods 0 and 1, the initial density matrix of `DMP` is the
linear interpolation `D₀ = (e_max·I - F)/(e_max - e_min)` between the
Gershgorin row-sum bounds of the (orthogonalized) Fock matrix, with
`e_min = min_i (F_ii - Σ_{j≠i}|F_ij|)` and `e_max = max_i (F_ii +
Σ_{j≠i}|F_ij|)`; the formulas are closed-form row sums, no
eigendecomposition is involved. -/
theorem C5_gershgorin_init {n : ℕ} (Fo : Dmm.Mat (n + 1)) (Ne : ℚ)
    (Method : ℤ) (emin emax : ℚ)
    (hM : Method = 0 ∨ Method = 1)
    (hmin : emin = Finset.univ.inf' Finset.univ_nonempty
        (fun i => Fo i i - ∑ j in Finset.univ.erase i, |Fo i j|))
    (hmax : emax = Finset.univ.sup' Finset.univ_nonempty
        (fun i => Fo i i + ∑ j in Finset.univ.erase i, |Fo i j|))
    (hne : emax ≠ emin) :
    Dmm.gershgorin_minmax Fo = (emin, emax) ∧
    Dmm.dmpInitD Method Fo emin emax Ne
      = .ok ((emax - emin)⁻¹ • (emax • (1 : Dmm.Mat (n + 1)) - Fo)) := by
  constructor
  · have hrow : ∀ i : Fin (n + 1),
        ∑ j in Finset.univ.erase i, |Fo i j| = ∑ j, |Fo i j| - |Fo i i| := by
      intro i
      rw [Finset.sum_erase_eq_sub (Finset.mem_univ i)]
    unfold Dmm.gershgorin_minmax
    rw [hmin, hmax]
    rw [Prod.mk.injEq]
    constructor
    · exact (Finset.inf'_congr Finset.univ_nonempty rfl
        (fun i _ => by rw [hrow i])).symm
    · exact (Finset.sup'_congr Finset.univ_nonempty rfl
        (fun i _ => by rw [hrow i])).symm
  · have hsub : emax - emin ≠ 0 := sub_ne_zero.mpr hne
    simp [Dmm.dmpInitD, hM, hsub]

/-- Witness for C5: a concrete `2×2` diagonal matrix with Gershgorin
bounds `(0, 2)`. -/
theorem C5_gershgorin_init_witness :
    ((0 : ℤ) = 0 ∨ (0 : ℤ) = 1) ∧
    ((0 : ℚ) = Finset.univ.inf' Finset.univ_nonempty
        (fun i : Fin 2 =>
          (fun i j : Fin 2 => if i = 1 ∧ j = 1 then (2 : ℚ) else 0) i i
            - ∑ j in Finset.univ.erase i,
                |(fun i j : Fin 2 => if i = 1 ∧ j = 1 then (2 : ℚ) else 0) i j|)) ∧
    ((2 : ℚ) ≠ 0) ∧
    (Dmm.gershgorin_minmax (n := 1)
        (fun i j => if i = 1 ∧ j = 1 then (2 : ℚ) else 0) = (0, 2) ∧
     Dmm.dmpInitD (n := 1) 0
        (fun i j => if i = 1 ∧ j = 1 then (2 : ℚ) else 0) 0 2 1
       = .ok (((2 : ℚ) - 0)⁻¹ • ((2 : ℚ) • (1 : Dmm.Mat 2)
           - Matrix.of (fun i j => if i = 1 ∧ j = 1 then (2 : ℚ) else 0)))) :=
  ⟨Or.inl rfl,
   by
     simp only [show (Finset.univ : Finset (Fin 2)) = insert 0 {1} from rfl,
       Finset.inf'_insert, Finset.inf'_singleton]
     norm_num [Finset.sum_erase_eq_sub, Fin.sum_univ_two],
   by norm_num,
   C5_gershgorin_init (n := 1)
     (fun i j => if i = 1 ∧ j = 1 then (2 : ℚ) else 0) 1 0 0 2
     (Or.inl rfl)
     (by
       simp only [show (Finset.univ : Finset (Fin 2)) = insert 0 {1} from rfl,
         Finset.inf'_insert, Finset.inf'_singleton]
       norm_num [Finset.sum_erase_eq_sub, Fin.sum_univ_two])
     (by
       simp only [show (Finset.univ : Finset (Fin 2)) = insert 0 {1} from rfl,
         Finset.sup'_insert, Finset.sup'_singleton]
       norm_num [Finset.sum_erase_eq_sub, Fin.sum_univ_two])
     (by norm_num)⟩

/-- The source-level `trace` agrees with Mathlib's `Matrix.trace`. -/
theorem trace_eq_matrix_trace {n : ℕ} (A : Dmm.Mat n) :
    Dmm.trace A = Matrix.trace A := rfl

/-- C2: with a nonzero denominator trace, one iteration of the canonical
purification (method 3) computes `cn = trace(D²-D³)/trace(D-D²)`, applies
the low-`cn` rational update when `cn < 0.5` and the high-`cn` one
otherwise, and breaks out of the loop exactly when the change
`sum(sum(D)) - Dsumold` of the total matrix-element sum falls below
`ErrorLimit`. -/
theorem C2_canonical_purification_step {n : ℕ} (Ne ErrorLimit dsumold : ℚ)
    (k : ℕ) (D : Dmm.Mat n) (hden : Matrix.trace (D - D ^ 2) ≠ 0) :
    Dmm.dmpIter Ne ErrorLimit 3 (k + 1) D dsumold =
      (let cn := Matrix.trace (D ^ 2 - D ^ 3) / Matrix.trace (D - D ^ 2)
       let D1 := if cn < 1 / 2 then
           ((1 - cn)⁻¹) • ((1 - 2 * cn) • D + (1 + cn) • D ^ 2 - D ^ 3)
         else (cn⁻¹) • ((1 + cn) • D ^ 2 - D ^ 3)
       if Dmm.sumAll D1 - dsumold < ErrorLimit then .ok (D1, false)
       else Dmm.dmpIter Ne ErrorLimit 3 k D1 (Dmm.sumAll D1)) := by
  have e2 : D ^ 2 = D * D := pow_two D
  have e3 : D ^ 3 = D * (D * D) := by rw [pow_succ', pow_two]
  have h30 : ¬((3 : ℤ) = 0) := by norm_num
  have h31 : ¬((3 : ℤ) = 1) := by norm_num
  have h32 : ¬((3 : ℤ) = 2) := by norm_num
  rw [← trace_eq_matrix_trace, e2] at hden
  simp only [Dmm.dmpIter, Dmm.dmpStep, ← trace_eq_matrix_trace, e2, e3,
    h30, h31, h32, hden, if_false, decide_eq_true_eq, ite_false]

/-- C10: with a nonzero `trace(Dg)`, one iteration of the trace-resetting
purification (method 1) computes the mixing factor
`γ = (Ne - trace(D²(4D-3D²)))/trace(D²(I-D)²)` and applies `2D-D²` when
`γ > 2`, `D²` when `γ < 0`, and the blend `Df - γ·Dg` only when
`0 ≤ γ ≤ 2`. -/
theorem C10_trace_resetting_step {n : ℕ} (Ne ErrorLimit dsumold : ℚ)
    (k : ℕ) (D : Dmm.Mat n)
    (htrg : Matrix.trace (D ^ 2 * ((1 : Dmm.Mat n) - D) ^ 2) ≠ 0) :
    Dmm.dmpIter Ne ErrorLimit 1 (k + 1) D dsumold =
      (let gamma := (Ne - Matrix.trace (D ^ 2 * ((4 : ℚ) • D - (3 : ℚ) • D ^ 2)))
          / Matrix.trace (D ^ 2 * ((1 : Dmm.Mat n) - D) ^ 2)
       let D1 := if gamma > 2 then (2 : ℚ) • D - D ^ 2
         else if gamma < 0 then D ^ 2
         else D ^ 2 * ((4 : ℚ) • D - (3 : ℚ) • D ^ 2)
             - gamma • (D ^ 2 * ((1 : Dmm.Mat n) - D) ^ 2)
       if |Matrix.trace D - Ne| < ErrorLimit then .ok (D1, false)
       else Dmm.dmpIter Ne ErrorLimit 1 k D1 dsumold) := by
  have e2 : D ^ 2 = D * D := pow_two D
  have ep2 : ((1 : Dmm.Mat n) - D) ^ 2
      = ((1 : Dmm.Mat n) - D) * ((1 : Dmm.Mat n) - D) := pow_two _
  have h10 : ¬((1 : ℤ) = 0) := by norm_num
  rw [← trace_eq_matrix_trace, e2, ep2] at htrg
  simp only [Dmm.dmpIter, Dmm.dmpStep, ← trace_eq_matrix_trace, e2, ep2,
    h10, htrg, if_false, decide_eq_true_eq, ite_false, ite_true]

/-- Witness for C2 at the `1×1` matrix `D = (2)` with `Ne = 1`,
`ErrorLimit = 1`, `Dsumold = 0`. -/
theorem C2_canonical_purification_step_witness :
    (Matrix.trace ((Matrix.of fun _ _ : Fin 1 => (2 : ℚ))
        - (Matrix.of fun _ _ : Fin 1 => (2 : ℚ)) ^ 2) ≠ 0) ∧
    (Dmm.dmpIter (n := 1) 1 1 3 (0 + 1) (Matrix.of fun _ _ : Fin 1 => (2 : ℚ)) 0 =
      (let D : Dmm.Mat 1 := Matrix.of fun _ _ : Fin 1 => (2 : ℚ)
       let cn := Matrix.trace (D ^ 2 - D ^ 3) / Matrix.trace (D - D ^ 2)
       let D1 := if cn < 1 / 2 then
           ((1 - cn)⁻¹) • ((1 - 2 * cn) • D + (1 + cn) • D ^ 2 - D ^ 3)
         else (cn⁻¹) • ((1 + cn) • D ^ 2 - D ^ 3)
       if Dmm.sumAll D1 - 0 < 1 then .ok (D1, false)
       else Dmm.dmpIter 1 1 3 0 D1 (Dmm.sumAll D1))) :=
  ⟨by
     rw [Matrix.trace_fin_one]
     simp [pow_two, Matrix.mul_apply, Fin.sum_univ_one, Matrix.sub_apply]
     norm_num,
   C2_canonical_purification_step (n := 1) 1 1 0 0
     (Matrix.of fun _ _ : Fin 1 => (2 : ℚ))
     (by
       rw [Matrix.trace_fin_one]
       simp [pow_two, Matrix.mul_apply, Fin.sum_univ_one, Matrix.sub_apply]
       norm_num)⟩

/-- Witness for C10 at the `1×1` matrix `D = (2)` with `Ne = 1`,
`ErrorLimit = 1`, `Dsumold = 0`. -/
theorem C10_trace_resetting_step_witness :
    (Matrix.trace ((Matrix.of fun _ _ : Fin 1 => (2 : ℚ)) ^ 2
        * ((1 : Dmm.Mat 1) - Matrix.of fun _ _ : Fin 1 => (2 : ℚ)) ^ 2) ≠ 0) ∧
    (Dmm.dmpIter (n := 1) 1 1 1 (0 + 1) (Matrix.of fun _ _ : Fin 1 => (2 : ℚ)) 0 =
      (let D : Dmm.Mat 1 := Matrix.of fun _ _ : Fin 1 => (2 : ℚ)
       let gamma := (1 - Matrix.trace (D ^ 2 * ((4 : ℚ) • D - (3 : ℚ) • D ^ 2)))
           / Matrix.trace (D ^ 2 * ((1 : Dmm.Mat 1) - D) ^ 2)
       let D1 := if gamma > 2 then (2 : ℚ) • D - D ^ 2
         else if gamma < 0 then D ^ 2
         else D ^ 2 * ((4 : ℚ) • D - (3 : ℚ) • D ^ 2)
             - gamma • (D ^ 2 * ((1 : Dmm.Mat 1) - D) ^ 2)
       if |Matrix.trace D - 1| < 1 then .ok (D1, false)
       else Dmm.dmpIter 1 1 1 0 D1 0)) :=
  ⟨by
     rw [Matrix.trace_fin_one]
     simp [pow_two, Matrix.mul_apply, Fin.sum_univ_one, Matrix.sub_apply,
       Matrix.one_apply]
     norm_num,
   C10_trace_resetting_step (n := 1) 1 1 0 0
     (Matrix.of fun _ _ : Fin 1 => (2 : ℚ))
     (by
       rw [Matrix.trace_fin_one]
       simp [pow_two, Matrix.mul_apply, Fin.sum_univ_one, Matrix.sub_apply,
         Matrix.one_apply]
       norm_num)⟩

/-- C7: when the purification loop exhausts its `MaxIter` budget without
the stopping criterion firing (the loop returns with the warning flag set),
`DMP` raises only the warning — not an error — and still returns the last
density matrix, transformed back to the non-orthogonal basis by
`simx(D, X, 'T')` with `X = SymOrth(S)`. -/
theorem C7_maxiter_warning {n : ℕ}
    (symOrth : Dmm.Mat (n + 1) → Dmm.Mat (n + 1))
    (simxN simxT : Dmm.Mat (n + 1) → Dmm.Mat (n + 1) → Dmm.Mat (n + 1))
    (F S : Dmm.Mat (n + 1)) (Ne : ℚ) (Method : ℤ) (MaxIter : ℕ)
    (ErrorLimit : ℚ) (D0 Dfin : Dmm.Mat (n + 1))
    (hinit : Dmm.dmpInitD Method (simxN F (symOrth S))
        (Dmm.gershgorin_minmax (simxN F (symOrth S))).1
        (Dmm.gershgorin_minmax (simxN F (symOrth S))).2 Ne = .ok D0)
    (hloop : Dmm.dmpIter Ne ErrorLimit Method MaxIter D0 (Dmm.sumAll D0)
        = .ok (Dfin, true)) :
    Dmm.DMP symOrth simxN simxT F S Ne Method MaxIter ErrorLimit
      = .ok (simxT Dfin (symOrth S), true) := by
  simp only [Dmm.DMP, hinit, hloop]

/-- Witness for C7: a `2×2` system with `MaxIter = 0`, so the loop budget
is exhausted immediately and the warning flag is returned. -/
theorem C7_maxiter_warning_witness :
    (Dmm.dmpInitD (n := 1) 0
        (Matrix.of fun i j => if i = 1 ∧ j = 1 then (2 : ℚ) else 0)
        (Dmm.gershgorin_minmax (n := 1)
          (Matrix.of fun i j => if i = 1 ∧ j = 1 then (2 : ℚ) else 0)).1
        (Dmm.gershgorin_minmax (n := 1)
          (Matrix.of fun i j => if i = 1 ∧ j = 1 then (2 : ℚ) else 0)).2 1
      = .ok (((2 : ℚ) - 0)⁻¹ • ((2 : ℚ) • (1 : Dmm.Mat 2)
          - Matrix.of fun i j => if i = 1 ∧ j = 1 then (2 : ℚ) else 0))) ∧
    (Dmm.dmpIter (n := 2) 1 0 0 0
        (((2 : ℚ) - 0)⁻¹ • ((2 : ℚ) • (1 : Dmm.Mat 2)
          - Matrix.of fun i j => if i = 1 ∧ j = 1 then (2 : ℚ) else 0))
        (Dmm.sumAll (((2 : ℚ) - 0)⁻¹ • ((2 : ℚ) • (1 : Dmm.Mat 2)
          - Matrix.of fun i j => if i = 1 ∧ j = 1 then (2 : ℚ) else 0)))
      = .ok ((((2 : ℚ) - 0)⁻¹ • ((2 : ℚ) • (1 : Dmm.Mat 2)
          - Matrix.of fun i j => if i = 1 ∧ j = 1 then (2 : ℚ) else 0)), true)) ∧
    Dmm.DMP (n := 1) (fun S => S) (fun A _ => A) (fun A _ => A)
        (Matrix.of fun i j => if i = 1 ∧ j = 1 then (2 : ℚ) else 0)
        (1 : Dmm.Mat 2) 1 0 0 0
      = .ok ((((2 : ℚ) - 0)⁻¹ • ((2 : ℚ) • (1 : Dmm.Mat 2)
          - Matrix.of fun i j => if i = 1 ∧ j = 1 then (2 : ℚ) else 0)), true) := by
  have hg : Dmm.gershgorin_minmax (n := 1)
      (Matrix.of fun i j => if i = 1 ∧ j = 1 then (2 : ℚ) else 0) = (0, 2) := by
    unfold Dmm.gershgorin_minmax
    rw [Prod.mk.injEq]
    constructor
    · simp only [show (Finset.univ : Finset (Fin 2)) = insert 0 {1} from rfl,
        Finset.inf'_insert, Finset.inf'_singleton]
      norm_num [Fin.sum_univ_two]
    · simp only [show (Finset.univ : Finset (Fin 2)) = insert 0 {1} from rfl,
        Finset.sup'_insert, Finset.sup'_singleton]
      norm_num [Fin.sum_univ_two]
  have hinit : Dmm.dmpInitD (n := 1) 0
      (Matrix.of fun i j => if i = 1 ∧ j = 1 then (2 : ℚ) else 0)
      (Dmm.gershgorin_minmax (n := 1)
        (Matrix.of fun i j => if i = 1 ∧ j = 1 then (2 : ℚ) else 0)).1
      (Dmm.gershgorin_minmax (n := 1)
        (Matrix.of fun i j => if i = 1 ∧ j = 1 then (2 : ℚ) else 0)).2 1
      = .ok (((2 : ℚ) - 0)⁻¹ • ((2 : ℚ) • (1 : Dmm.Mat 2)
          - Matrix.of fun i j => if i = 1 ∧ j = 1 then (2 : ℚ) else 0)) := by
    rw [hg]
    simp [Dmm.dmpInitD]
  exact ⟨hinit, rfl,
    C7_maxiter_warning (n := 1) (fun S => S) (fun A _ => A) (fun A _ => A)
      (Matrix.of fun i j => if i = 1 ∧ j = 1 then (2 : ℚ) else 0)
      (1 : Dmm.Mat 2) 1 0 0 0 _ _ hinit rfl⟩

section PatchError

open MolGrid

/-- If a Becke factor is computed successfully, the interatomic distance
`rij = sqrt(dist2(ati,atj))` was nonzero (otherwise Python raises
`ZeroDivisionError` at `mu = (rip-rjp)/rij`). -/
theorem beckeFactor_ok_rij {sqrtQ : ℚ → ℚ} {bragg : ℕ → ℚ} {hetero : Bool}
    {ati atj : GAtom} {rip px py pz : ℚ} {v : ℚ}
    (h : beckeFactor sqrtQ bragg hetero ati atj rip px py pz = .ok v) :
    sqrtQ (dist2 ati.pos atj.pos) ≠ 0 := by
  intro h0
  rw [beckeFactor] at h
  simp only [h0, if_pos rfl] at h
  exact Except.noConfusion h

/-- If the `sprod` accumulation over a suffix of the atom list succeeds,
then every visited pair (every index other than `iat`) had a successfully
computed Becke factor. -/
theorem sprodGo_ok {sqrtQ : ℚ → ℚ} {bragg : ℕ → ℚ} {hetero : Bool}
    {iat : ℕ} {ati : GAtom} {rip px py pz : ℚ} :
    ∀ (l : List GAtom) (k : ℕ) (acc s : ℚ),
      sprodGo sqrtQ bragg hetero iat ati rip px py pz l k acc = .ok s →
      ∀ (m : ℕ) (atj : GAtom), l.get? m = some atj → k + m ≠ iat →
      ∃ v, beckeFactor sqrtQ bragg hetero ati atj rip px py pz = .ok v := by
  intro l
  induction l with
  | nil =>
    intro k acc s _ m atj hm _
    simp [List.get?] at hm
  | cons a rest ih =>
    intro k acc s h m atj hm hne
    rw [sprodGo] at h
    by_cases hk : k = iat
    · rw [if_pos hk] at h
      match m, hm with
      | 0, hm =>
        exact absurd (by omega : k + 0 = iat) hne
      | m' + 1, hm =>
        have hm' : rest.get? m' = some atj := by simpa [List.get?] using hm
        exact ih (k + 1) acc s h m' atj hm' (by omega)
    · rw [if_neg hk] at h
      cases hb : beckeFactor sqrtQ bragg hetero ati a rip px py pz with
      | error e => rw [hb] at h; exact Except.noConfusion h
      | ok s1 =>
        rw [hb] at h
        match m, hm with
        | 0, hm =>
          have : a = atj := by simpa [List.get?] using hm
          exact ⟨s1, this ▸ hb⟩
        | m' + 1, hm =>
          have hm' : rest.get? m' = some atj := by simpa [List.get?] using hm
          exact ih (k + 1) (acc * s1) s h m' atj hm' (by omega)

/-- If patching a single grid point succeeds, the whole `sprod`
accumulation over the atom list succeeded. -/
theorem patchPoint_ok {sqrtQ : ℚ → ℚ} {bragg : ℕ → ℚ} {hetero : Bool}
    {atoms : List GAtom} {iat : ℕ} {ati : GAtom} {p q : GPoint}
    (h : patchPoint sqrtQ bragg hetero atoms iat ati p = .ok q) :
    ∃ s, sprodGo sqrtQ bragg hetero iat ati
        (sqrtQ (dist2 ati.pos (p.x, p.y, p.z))) p.x p.y p.z atoms 0 1
      = .ok s := by
  rw [patchPoint] at h
  cases hs : sprodGo sqrtQ bragg hetero iat ati
      (sqrtQ (dist2 ati.pos (p.x, p.y, p.z))) p.x p.y p.z atoms 0 1 with
  | error e => rw [hs] at h; exact Except.noConfusion h
  | ok s => exact ⟨s, rfl⟩

/-- If patching an atomic grid succeeds, patching its first point
succeeded. -/
theorem patchGrid_ok_head {sqrtQ : ℚ → ℚ} {bragg : ℕ → ℚ} {hetero : Bool}
    {atoms : List GAtom} {iat : ℕ} {ati : GAtom} {p : GPoint}
    {ps gs : List GPoint}
    (h : patchGrid sqrtQ bragg hetero atoms iat ati (p :: ps) = .ok gs) :
    ∃ q, patchPoint sqrtQ bragg hetero atoms iat ati p = .ok q := by
  rw [patchGrid] at h
  cases hp : patchPoint sqrtQ bragg hetero atoms iat ati p with
  | error e => rw [hp] at h; exact Except.noConfusion h
  | ok q => exact ⟨q, rfl⟩

/-- If the outer patching loop succeeds, every atom/grid pair at matching
index was patched successfully. -/
theorem patchGo_ok {sqrtQ : ℚ → ℚ} {bragg : ℕ → ℚ} {hetero : Bool}
    {atoms : List GAtom} :
    ∀ (lA : List GAtom) (lG : List (List GPoint)) (k : ℕ)
      (r : List (List GPoint)),
      patchGo sqrtQ bragg hetero atoms lA lG k = .ok r →
      ∀ (m : ℕ) (am : GAtom) (gm : List GPoint),
        lA.get? m = some am → lG.get? m = some gm →
        ∃ g1, patchGrid sqrtQ bragg hetero atoms (k + m) am gm = .ok g1 := by
  intro lA
  induction lA with
  | nil =>
    intro lG k r _ m am gm hm _
    simp [List.get?] at hm
  | cons a restA ih =>
    intro lG k r h m am gm hm hg
    cases lG with
    | nil => rw [patchGo] at h; exact Except.noConfusion h
    | cons g restG =>
      rw [patchGo] at h
      cases hgr : patchGrid sqrtQ bragg hetero atoms k a g with
      | error e => rw [hgr] at h; exact Except.noConfusion h
      | ok g1 =>
        rw [hgr] at h
        cases hrest : patchGo sqrtQ bragg hetero atoms restA restG (k + 1) with
        | error e => rw [hrest] at h; exact Except.noConfusion h
        | ok rest1 =>
          match m, hm, hg with
          | 0, hm, hg =>
            have ha : a = am := by simpa [List.get?] using hm
            have hgg : g = gm := by simpa [List.get?] using hg
            exact ⟨g1, by rw [show k + 0 = k from rfl, ← ha, ← hgg]; exact hgr⟩
          | m' + 1, hm, hg =>
            have hm' : restA.get? m' = some am := by simpa [List.get?] using hm
            have hg' : restG.get? m' = some gm := by simpa [List.get?] using hg
            have := ih restG (k + 1) rest1 hrest m' am gm hm' hg'
            rwa [show k + 1 + m' = k + (m' + 1) by omega] at this

end PatchError

/-- C1: a molecule containing two distinct atoms at the same position is
rejected during `MolecularGrid` construction: `patch_atoms` (run by
`__init__`) aborts with an error at the zero interatomic distance — it
never returns (patched, possibly-NaN) weights.  `sqrtQ 0 = 0` is the only
fact used about the external square root, and the atom `i`'s grid is
nonempty (atomic grids always contain points). -/
theorem C1_coincident_atoms_rejected (sqrtQ : ℚ → ℚ) (bragg : ℕ → ℚ)
    (hetero : Bool) (atoms : List MolGrid.GAtom)
    (grids : List (List MolGrid.GPoint)) (i j : ℕ)
    (ai aj : MolGrid.GAtom) (gi : List MolGrid.GPoint)
    (hs : sqrtQ 0 = 0)
    (hai : atoms.get? i = some ai) (haj : atoms.get? j = some aj)
    (hgi : grids.get? i = some gi) (hne : gi ≠ []) (hij : i ≠ j)
    (hpos : ai.pos = aj.pos) :
    ∃ e, MolGrid.patch_atoms sqrtQ bragg hetero atoms grids = .error e := by
  cases hres : MolGrid.patch_atoms sqrtQ bragg hetero atoms grids with
  | error e => exact ⟨e, rfl⟩
  | ok r =>
    exfalso
    rw [MolGrid.patch_atoms] at hres
    obtain ⟨g1, hgrid⟩ := patchGo_ok atoms grids 0 r hres i ai gi hai hgi
    rw [show 0 + i = i from by omega] at hgrid
    obtain ⟨p, ps, rfl⟩ : ∃ p ps, gi = p :: ps := by
      cases gi with
      | nil => exact absurd rfl hne
      | cons p ps => exact ⟨p, ps, rfl⟩
    obtain ⟨q, hpt⟩ := patchGrid_ok_head hgrid
    obtain ⟨s, hsp⟩ := patchPoint_ok hpt
    obtain ⟨v, hfac⟩ := sprodGo_ok atoms 0 1 s hsp j aj haj (by omega)
    have hrij := beckeFactor_ok_rij hfac
    rw [hpos, dist2_self, hs] at hrij
    exact hrij rfl

/-- Witness for C1: two hydrogen atoms at the origin, one grid point each. -/
theorem C1_coincident_atoms_rejected_witness :
    ((fun _ : ℚ => (0 : ℚ)) 0 = 0) ∧
    ([⟨1, 0, 0, 0⟩, ⟨1, 0, 0, 0⟩] : List MolGrid.GAtom).get? 0
        = some ⟨1, 0, 0, 0⟩ ∧
    ([⟨1, 0, 0, 0⟩, ⟨1, 0, 0, 0⟩] : List MolGrid.GAtom).get? 1
        = some ⟨1, 0, 0, 0⟩ ∧
    ([[⟨0, 0, 0, 1⟩], [⟨0, 0, 0, 1⟩]] : List (List MolGrid.GPoint)).get? 0
        = some [⟨0, 0, 0, 1⟩] ∧
    ([⟨0, 0, 0, 1⟩] : List MolGrid.GPoint) ≠ [] ∧
    (0 : ℕ) ≠ 1 ∧
    (⟨1, 0, 0, 0⟩ : MolGrid.GAtom).pos = (⟨1, 0, 0, 0⟩ : MolGrid.GAtom).pos ∧
    (∃ e, MolGrid.patch_atoms (fun _ => 0) (fun _ => 1) false
        [⟨1, 0, 0, 0⟩, ⟨1, 0, 0, 0⟩] [[⟨0, 0, 0, 1⟩], [⟨0, 0, 0, 1⟩]]
      = .error e) :=
  ⟨rfl, rfl, rfl, rfl, by simp, by omega, rfl,
   C1_coincident_atoms_rejected (fun _ => 0) (fun _ => 1) false
     [⟨1, 0, 0, 0⟩, ⟨1, 0, 0, 0⟩] [[⟨0, 0, 0, 1⟩], [⟨0, 0, 0, 1⟩]] 0 1
     ⟨1, 0, 0, 0⟩ ⟨1, 0, 0, 0⟩ [⟨0, 0, 0, 1⟩] rfl rfl rfl rfl
     (by simp) (by omega) rfl⟩
